import Mathlib

/-!
Verification of the `easybind` request-parameter binder (`bind.go`) against its
natural-language specification.

The Go source is shallowly embedded: the reflection-driven walk over the
destination record becomes structural recursion over a small universe of Go
types (`Ty`) and values (`Val`); the HTTP request and its mutable parsing state
become an explicit `ReqState` record threaded through the computation; the
per-call `easyReq` bookkeeping (`hasJSONBody`, the `sync.Once` form guard, the
shared error slot, cancellation) becomes an explicit `CallSt` record.

Concurrency modelling.  `Bind` spawns one goroutine per field and a nested
goroutine per `bindFieldWithCtx`.  The embedding fixes the deterministic
serialisation in which each outer goroutine runs to completion at its spawn
point, in field-declaration order, and every inner `bindField` goroutine runs
to completion as well (in Go the inner goroutine is started unconditionally
and always executes `bindField` fully, even when the surrounding select
returns early through `ctx.Done()`).  Under this schedule:
  * every field's side effects (field assignment, `hasJSONBody`, the form
    once-guard) happen before the body-decode check after `wg.Wait()`;
  * the shared named return `err` is overwritten by every outer goroutine in
    field order; a goroutine whose context was already cancelled delivers
    `nil` (the `<-e.ctx.Done()` branch of the select returns the zero error),
    so the slot finally holds the last field's delivery.
This is one admissible schedule of the racy source; the spec itself flags the
error-slot race (§5, §9) as yielding non-deterministic outcomes.

Machine integers: the only integer consumed from the request is
`ContentLength int64`, used solely through the comparison `> 0`; it is
modelled as `Int` (no overflow is possible in the source's use).
-/

namespace EasyBind

/-! ## Tag constants (bind.go lines 17-26) -/

def inTagPath : String := "path"
def inTagQuery : String := "query"
def inTagBody : String := "body"
def inTagForm : String := "form"
def inTagHeader : String := "header"
def tagNameIn : String := "pos"
def tagSep : String := ","

/-! ## The universe of Go types and destination records

A destination record is a struct whose fields carry the `pos` and `json` tags
and the `Anonymous` flag that `bind.go` consults via reflection.  The universe
covers the kinds the binder distinguishes: strings, integers, `[]string`
(the ordered sequence of text of the spec), structs, and (possibly nil)
pointers.  Absent struct tags are the empty string, exactly as
`reflect.StructTag.Get` reports them. -/

mutual
inductive Ty : Type where
  | str : Ty
  | int : Ty
  | strSlice : Ty
  | structT : Fields → Ty
  | ptr : Ty → Ty

inductive Fields : Type where
  | nil : Fields
  | cons : FieldT → Fields → Fields

inductive FieldT : Type where
  | mk : (name posTag jsonTag : String) → (anon : Bool) → (ty : Ty) → FieldT
end

def FieldT.name : FieldT → String
  | .mk n _ _ _ _ => n

def FieldT.posTag : FieldT → String
  | .mk _ p _ _ _ => p

def FieldT.jsonTag : FieldT → String
  | .mk _ _ j _ _ => j

def FieldT.anon : FieldT → Bool
  | .mk _ _ _ a _ => a

def FieldT.ty : FieldT → Ty
  | .mk _ _ _ _ t => t

/- Values of the universe.  A pointer value records its element type (needed
for `reflect.New` when the binder allocates a nil layer) and is either nil or
holds a pointee. -/
mutual
inductive Val : Type where
  | str : String → Val
  | intV : Int → Val
  | strSlice : List String → Val
  | structV : Vals → Val
  | ptrNil : Ty → Val
  | ptrSome : Ty → Val → Val

inductive Vals : Type where
  | nil : Vals
  | cons : Val → Vals → Vals
end

/- Structural depth measures used to justify termination of the mutually
recursive walk (the Go code terminates because reflection types are finite
trees; `tyDepth` makes that explicit). -/
mutual
def tyDepth : Ty → Nat
  | .str => 0
  | .int => 0
  | .strSlice => 0
  | .structT fs => fieldsDepth fs + 2
  | .ptr e => tyDepth e + 1

def fieldsDepth : Fields → Nat
  | .nil => 0
  | .cons (.mk _ _ _ _ t) fs => tyDepth t + fieldsDepth fs + 1
end

/- The zero value of a type, as produced by `reflect.New(t).Elem()`. -/
mutual
def zeroVal : Ty → Val
  | .str => .str ""
  | .int => .intV 0
  | .strSlice => .strSlice []
  | .structT fs => .structV (zeroFields fs)
  | .ptr e => .ptrNil e
termination_by ty => tyDepth ty
decreasing_by all_goals (try simp [tyDepth, fieldsDepth, FieldT.ty]); all_goals omega

def zeroFields : Fields → Vals
  | .nil => .nil
  | .cons (.mk _ _ _ _ t) fs => .cons (zeroVal t) (zeroFields fs)
termination_by fs => fieldsDepth fs
decreasing_by all_goals (try simp [tyDepth, fieldsDepth, FieldT.ty]); all_goals omega
end

/-! ## JSON values and the request -/

inductive Json : Type where
  | null : Json
  | str : String → Json
  | num : Int → Json
  | arr : List Json → Json
  | obj : List (String × Json) → Json

/-- The consumed slice of `*http.Request`: parsed query pairs, header pairs,
the form-encoded body pairs, `ContentLength`, and the JSON body.  `postForm`
and `parseFormCount` model `net/http`'s `ParseForm` state (`r.PostForm` plus an
instrumentation counter of actual parses), `bodyRead` models the one-shot
body reader consumed by `json.NewDecoder(req.Body).Decode`. -/
structure ReqState : Type where
  query : List (String × String)
  headers : List (String × String)
  formBody : List (String × String)
  contentLength : Int
  body : Json
  postForm : Option (List (String × String))
  parseFormCount : Nat
  bodyRead : Bool

/-- All values stored under key `k`, in order of occurrence (url.Values /
http.Header multimap lookup). -/
def lookupAll (ps : List (String × String)) (k : String) : List String :=
  (ps.filter (fun p => p.1 == k)).map (fun p => p.2)

/-- Modelled from the spec: `net/http.(*Request).ParseForm` is not part of this
repository.  Per the spec's request-object interface (§6, "form parser
yielding a name→values mapping") and `net/http`'s documented behaviour,
`ParseForm` is idempotent: it parses the form-encoded body into `PostForm`
only when `PostForm` is still unset, and is a no-op afterwards.
`parseFormCount` counts the actual parses of the body. -/
def parseForm (r : ReqState) : ReqState :=
  match r.postForm with
  | some _ => r
  | none => { r with postForm := some r.formBody, parseFormCount := r.parseFormCount + 1 }

/-! ## Path accessors (bind.go lines 207-229) -/

/-- An opaque path accessor: either the `giner` shape (`Param`), the
`httprouter` shape (`ByName`), or something implementing neither. -/
inductive PathQ : Type where
  | giner : (String → String) → PathQ
  | byName : (String → String) → PathQ
  | other : PathQ

/-- `getValueFromPath` (bind.go lines 215-229): consult only the first
accessor; empty string when none is supplied or it has neither shape. -/
def getValueFromPath (name : String) (pq : List PathQ) : String :=
  match pq with
  | [] => ""
  | q :: _ =>
    match q with
    | .giner f => f name
    | .byName f => f name
    | .other => ""

/-! ## Tag parsing (bind.go lines 187-205) -/

/-- Split a character list at every occurrence of `sep`; `goSplit` below lifts
it to strings. -/
def splitChar (sep : Char) (cs : List Char) : List (List Char) :=
  match cs with
  | [] => [[]]
  | c :: rest =>
    let r := splitChar sep rest
    if c = sep then [] :: r
    else
      match r with
      | [] => [[c]]
      | g :: gs => (c :: g) :: gs

/-- Go's `strings.Split` for a one-character separator (the source only splits
on "," and ":"): `goSplit "" c = [""]`, empty segments are kept, and the
result is never empty. -/
def goSplit (s : String) (sep : Char) : List String :=
  (splitChar sep s.data).map (fun g => String.mk g)

/-- `getInTagLocAndName`: absent `pos` tag defaults to (body, field name);
a first directive that is not exactly two colon-separated tokens yields
("", ""), which matches no extractor (the field is skipped). -/
def getInTagLocAndName (f : FieldT) : String × String :=
  if f.posTag = "" then (inTagBody, f.name)
  else
    let splits := goSplit f.posTag ','
    let locs := goSplit (splits.headD "") ':'
    match locs with
    | [a, b] => (a, b)
    | _ => ("", "")

/-! ## Value coercion (spec-modelled) -/

/-- Modelled from the spec: `BindValue` is referenced by `bind.go` line 168
but its definition is not under `src/`.  Per §4.4 it interprets one raw
string at the target type's kind: text is used verbatim, integers parse in
base 10 with parse failure leaving the field unassigned (`none`), and other
kinds produce no assignment. -/
def BindValue (s : String) (ty : Ty) : Option Val :=
  match ty with
  | .str => some (.str s)
  | .int => (s.toInt?).map (fun n => .intV n)
  | _ => none

/-- Modelled from the spec: `sliceBinder` is referenced by `bind.go` line 170
but its definition is not under `src/`.  Per §4.4 multiple raw values coerce
to a sequence whose element kind matches the target's element kind, one
element per raw value; a non-sequence target gets no assignment. -/
def sliceBinder (xs : List String) (ty : Ty) : Option Val :=
  match ty with
  | .strSlice => some (.strSlice xs)
  | _ => none

/-- Assignment policy of bind.go lines 173-183.  `BindValue`/`sliceBinder`
produce a value of exactly the target type (§4.4), so the `ConvertibleTo` and
type-equality tests of the source both succeed and the slice/array branch
appends while every other kind replaces. -/
def assignVal (ty : Ty) (old rv : Val) : Val :=
  match ty, old, rv with
  | .strSlice, .strSlice a, .strSlice b => .strSlice (a ++ b)
  | _, _, _ => rv

/-! ## JSON decoding (the body overlay)

Modelled from the spec: the decoder is the external `jsoniter` configured
compatible with the standard library (bind.go line 14), not repository code.
Per §4.5 it decodes field-by-name into the record, leaving fields whose key
is absent untouched (an overlay), recursing into nested records, and
returning an error on a shape mismatch; `null` leaves a value unchanged. -/

inductive BErr : Type where
  | nonPointer : BErr
  | nonStruct : BErr
  | eofBody : BErr
  | jsonMismatch : BErr
deriving DecidableEq

/-- The JSON key under which a field participates in the overlay: the first
comma-separated component of its `json` tag, or the field name when that is
empty. -/
def jsonKeyOf (f : FieldT) : String :=
  let n := (goSplit f.jsonTag ',').headD ""
  if n = "" then f.name else n

mutual
def decodeJson (j : Json) (ty : Ty) (v : Val) : Except BErr Val :=
  match ty with
  | .str =>
    match j with
    | .null => .ok v
    | .str s => .ok (.str s)
    | _ => .error .jsonMismatch
  | .int =>
    match j with
    | .null => .ok v
    | .num n => .ok (.intV n)
    | _ => .error .jsonMismatch
  | .strSlice =>
    match j with
    | .null => .ok v
    | .arr xs =>
      match xs.mapM (fun e => match e with | Json.str s => some s | _ => none) with
      | some ss => .ok (.strSlice ss)
      | none => .error .jsonMismatch
    | _ => .error .jsonMismatch
  | .structT fs =>
    match j with
    | .null => .ok v
    | .obj kvs =>
      match v with
      | .structV vs =>
        match decodeFields kvs fs vs with
        | .ok vs2 => .ok (.structV vs2)
        | .error e => .error e
      | _ => .error .jsonMismatch
    | _ => .error .jsonMismatch
  | .ptr e =>
    match j with
    | .null => .ok (.ptrNil e)
    | _ =>
      match v with
      | .ptrSome e2 inner =>
        match decodeJson j e inner with
        | .ok v2 => .ok (.ptrSome e2 v2)
        | .error er => .error er
      | _ =>
        match decodeJson j e (zeroVal e) with
        | .ok v2 => .ok (.ptrSome e v2)
        | .error er => .error er
termination_by 2 * tyDepth ty + 1
decreasing_by all_goals (try simp [tyDepth, fieldsDepth, FieldT.ty]); all_goals omega

def decodeFields (kvs : List (String × Json)) (fs : Fields) (vs : Vals) :
    Except BErr Vals :=
  match fs, vs with
  | .cons (.mk nm pt jt an t) fs', .cons v vs' =>
    let v1 :=
      match kvs.lookup (jsonKeyOf (.mk nm pt jt an t)) with
      | some j => decodeJson j t v
      | none => .ok v
    match v1 with
    | .error e => .error e
    | .ok v2 =>
      match decodeFields kvs fs' vs' with
      | .ok vs2 => .ok (.cons v2 vs2)
      | .error e => .error e
  | _, _ => .ok vs
termination_by 2 * fieldsDepth fs + 2
decreasing_by all_goals (try simp [tyDepth, fieldsDepth, FieldT.ty]); all_goals omega
end

/-- One `Decode` call on the request's body reader: a second read of the
one-shot reader fails (`io.EOF`), a first read decodes the body. -/
def runDecode (r : ReqState) (ty : Ty) (v : Val) : ReqState × Except BErr Val :=
  if r.bodyRead then (r, .error .eofBody)
  else ({ r with bodyRead := true }, decodeJson r.body ty v)

/-! ## The per-call state and results -/

/-- Per-call `easyReq` bookkeeping plus the serialised error slot:
`hasJSON` is `easyReq.hasJSONBody`, `onceDone` the `sync.Once` guard,
`errSlot` the shared named return `err`, `cancelled` whether `cancel()` has
been called. -/
structure CallSt : Type where
  hasJSON : Bool
  onceDone : Bool
  errSlot : Option BErr
  cancelled : Bool

def initCall : CallSt :=
  { hasJSON := false, onceDone := false, errSlot := none, cancelled := false }

/-- Result of a whole `Bind` call: either a runtime panic, or the final
request state, the (rebuilt) destination value, the returned error, and
whether this call executed its own JSON body decode. -/
inductive BindRes : Type where
  | panicked : BindRes
  | ok : ReqState → Val → Option BErr → Bool → BindRes

/-- Result of one field task: the request state, call state, the field's new
value, and the error (if any) the field delivered on `errCh`. -/
inductive FRes : Type where
  | panicked : FRes
  | ok : ReqState → CallSt → Val → Option BErr → FRes

/-- Result of the field walk over a struct. -/
inductive SRes : Type where
  | panicked : SRes
  | ok : ReqState → CallSt → Vals → SRes

def wrapPtr (e : Ty) : BindRes → BindRes
  | .panicked => .panicked
  | .ok r v err d => .ok r (.ptrSome e v) err d

/-! ## The binder (bind.go lines 42-185) -/

/-- The `sync.Once`-guarded `req.ParseForm()` of bind.go lines 155-158. -/
def doOnceParseForm (r : ReqState) (c : CallSt) : ReqState × CallSt :=
  if c.onceDone then (r, c) else (parseForm r, { c with onceDone := true })

/-- Lines 138-161 of `bindField`: record the `json` tag in `hasJSONBody`,
then dispatch on the parsed `pos` location to collect the raw values.  The
`body` location and the malformed-tag ("", "") result fall through the
switch with no values collected. -/
def collectValues (r : ReqState) (c : CallSt) (pq : List PathQ) (f : FieldT) :
    ReqState × CallSt × List String :=
  let c1 : CallSt := { c with hasJSON := c.hasJSON || f.jsonTag != "" }
  let ln := getInTagLocAndName f
  if ln.1 = inTagPath then (r, c1, [getValueFromPath ln.2 pq])
  else if ln.1 = inTagQuery then (r, c1, lookupAll r.query ln.2)
  else if ln.1 = inTagHeader then (r, c1, lookupAll r.headers ln.2)
  else if ln.1 = inTagForm then
    let rc := doOnceParseForm r c1
    (rc.1, rc.2, lookupAll (rc.1.postForm.getD []) ln.2)
  else (r, c1, [])

/-- Lines 138-185 of `bindField` after the anonymous-embedding block: collect
raw values, then coerce and assign by arity (lines 163-183); an empty value
list leaves the field untouched; a field task itself never delivers an error
here (`errCh` is only written in the anonymous block). -/
def bindFieldRest (r : ReqState) (c : CallSt) (pq : List PathQ) (f : FieldT)
    (v : Val) : FRes :=
  match collectValues r c pq f with
  | (r1, c2, values) =>
    match values with
    | [] => .ok r1 c2 v none
    | [x] =>
      match BindValue x f.ty with
      | none => .ok r1 c2 v none
      | some rv => .ok r1 c2 (assignVal f.ty v rv) none
    | xs =>
      match sliceBinder xs f.ty with
      | none => .ok r1 c2 v none
      | some rv => .ok r1 c2 (assignVal f.ty v rv) none

mutual
/-- The pointer-walk of bind.go lines 49-60 on an addressable value: nil
layers are allocated (`reflect.New`) before dereferencing; the final
pointee must be a struct, which is then walked and overlaid. -/
def walkVal (r : ReqState) (pq : List PathQ) (ty : Ty) (v : Val) : BindRes :=
  match ty with
  | .ptr e =>
    match v with
    | .ptrSome e2 inner => wrapPtr e2 (walkVal r pq e inner)
    | .ptrNil _ => wrapPtr e (walkVal r pq e (zeroVal e))
    | _ => .ok r v (some .nonStruct) false
  | .structT fs =>
    match v with
    | .structV vs => bindStructPipeline r pq fs vs
    | _ => .ok r v (some .nonStruct) false
  | _ => .ok r v (some .nonStruct) false
termination_by 2 * tyDepth ty + 2
decreasing_by all_goals (try simp [tyDepth, fieldsDepth, FieldT.ty]); all_goals omega

/-- Lines 62-95: walk all fields (serialised, see header comment), then run
the JSON body overlay when `ContentLength > 0` and some field set
`hasJSONBody`; the decode's outcome overwrites the error slot.  Note the
source places no `err == nil` guard before the decode. -/
def bindStructPipeline (r : ReqState) (pq : List PathQ) (fs : Fields)
    (vs : Vals) : BindRes :=
  match bindStruct r initCall pq fs vs with
  | .panicked => .panicked
  | .ok r1 c vs1 =>
    if 0 < r1.contentLength ∧ c.hasJSON = true then
      match runDecode r1 (.structT fs) (.structV vs1) with
      | (r2, .ok v2) => .ok r2 v2 none true
      | (r2, .error e) => .ok r2 (.structV vs1) (some e) true
    else .ok r1 (.structV vs1) c.errSlot false
termination_by 2 * fieldsDepth fs + 5
decreasing_by all_goals (try simp [tyDepth, fieldsDepth, FieldT.ty]); all_goals omega

/-- The field loop of lines 76-87 under the serialised schedule: each field
task runs fully; its delivery overwrites the error slot, except that a task
whose context was already cancelled delivers `nil`; any error cancels the
context for the tasks after it. -/
def bindStruct (r : ReqState) (c : CallSt) (pq : List PathQ) (fs : Fields)
    (vs : Vals) : SRes :=
  match fs, vs with
  | .cons (.mk nm pt jt an t) fs', .cons v vs' =>
    match bindFieldM r c pq (.mk nm pt jt an t) v with
    | .panicked => .panicked
    | .ok r1 c1 v1 ferr =>
      let c2 : CallSt :=
        { c1 with errSlot := if c.cancelled then none else ferr,
                  cancelled := c1.cancelled || ferr.isSome }
      match bindStruct r1 c2 pq fs' vs' with
      | .panicked => .panicked
      | .ok r2 c3 vs2 => .ok r2 c3 (.cons v1 vs2)
  | _, _ => .ok r c vs
termination_by 2 * fieldsDepth fs + 4
decreasing_by all_goals (try simp [tyDepth, fieldsDepth, FieldT.ty]); all_goals omega

/-- `bindField` lines 127-136 plus the tail: an anonymous field first runs a
recursive `Bind` on a fresh non-nil pointer to a zero instance of its type
(`reflect.New`); the recursive `Bind`'s non-pointer check passes and its
pointer walk immediately dereferences, i.e. it is `walkVal` on the fresh
zero instance, with a fresh per-call state but the shared request.  On error
the field delivers it on `errCh` and returns; on success `field.Set(r.Elem())`
installs the bound instance and execution falls through to the tag logic. -/
def bindFieldM (r : ReqState) (c : CallSt) (pq : List PathQ) :
    FieldT → Val → FRes
  | .mk nm pt jt an t, v =>
    if an then
      match walkVal r pq t (zeroVal t) with
      | .panicked => .panicked
      | .ok r1 rv rerr _ =>
        match rerr with
        | some e => .ok r1 c v (some e)
        | none => bindFieldRest r1 c pq (.mk nm pt jt an t) rv
    else bindFieldRest r c pq (.mk nm pt jt an t) v
termination_by f _ => 2 * tyDepth f.ty + 5
decreasing_by all_goals (try simp [tyDepth, fieldsDepth, FieldT.ty]); all_goals omega
end

/-- `Bind` (bind.go line 42): the non-pointer check, then the first iteration
of the pointer loop on the non-addressable `reflect.ValueOf(params)`: a nil
top-level pointer hits `paramsVal.Set` on an unaddressable value, which
panics in `reflect`; a non-nil pointer dereferences into the addressable
walk. -/
def BindModel (r : ReqState) (pq : List PathQ) (ty : Ty) (v : Val) : BindRes :=
  match ty with
  | .ptr e =>
    match v with
    | .ptrNil _ => .panicked
    | .ptrSome e2 inner => wrapPtr e2 (walkVal r pq e inner)
    | _ => .ok r v (some .nonStruct) false
  | _ => .ok r v (some .nonPointer) false

/-! ## Result projections and auxiliary predicates used by the statements -/

/-- Whether the call executed its own body decode. -/
def resRanDecode : BindRes → Bool
  | .panicked => false
  | .ok _ _ _ d => d

/-- The error a completed call returns (`none` also for a panic, which
returns nothing at all; statements that care exclude the panic case). -/
def resErr : BindRes → Option BErr
  | .panicked => none
  | .ok _ _ e _ => e

/-- The `parseFormCount` of the final request state of a completed call. -/
def resParseFormCount : BindRes → Nat
  | .panicked => 0
  | .ok r _ _ _ => r.parseFormCount

def Ty.isPtr : Ty → Bool
  | .ptr _ => true
  | _ => false

def Ty.isStructT : Ty → Bool
  | .structT _ => true
  | _ => false

/-- The type a chain of pointers ultimately addresses. -/
def stripPtrs : Ty → Ty
  | .ptr e => stripPtrs e
  | .str => .str
  | .int => .int
  | .strSlice => .strSlice
  | .structT fs => .structT fs

/- Well-typedness of a value at a type (reflection guarantees it in Go;
the embedding states it explicitly where a theorem needs it). -/
mutual
def compatTV : Ty → Val → Bool
  | .str, .str _ => true
  | .int, .intV _ => true
  | .strSlice, .strSlice _ => true
  | .structT fs, .structV vs => compatFields fs vs
  | .ptr _, .ptrNil _ => true
  | .ptr e, .ptrSome _ inner => compatTV e inner
  | _, _ => false
termination_by ty _ => tyDepth ty
decreasing_by all_goals (try simp [tyDepth, fieldsDepth, FieldT.ty]); all_goals omega

def compatFields : Fields → Vals → Bool
  | .nil, .nil => true
  | .cons (.mk _ _ _ _ t) fs, .cons v vs => compatTV t v && compatFields fs vs
  | _, _ => false
termination_by fs _ => fieldsDepth fs
decreasing_by all_goals (try simp [tyDepth, fieldsDepth, FieldT.ty]); all_goals omega
end

/-- No field of the record is an anonymous embedded one. -/
def noAnonFields : Fields → Bool
  | .nil => true
  | .cons f fs => !f.anon && noAnonFields fs

/-- Some field of the record carries a non-empty `json` tag. -/
def anyJsonTag : Fields → Bool
  | .nil => false
  | .cons f fs => f.jsonTag != "" || anyJsonTag fs

/-! ## Concrete requests and record schemas used by the claims -/

/-- A request with no parameters anywhere and no advertised body. -/
def reqEmpty : ReqState :=
  { query := [], headers := [], formBody := [], contentLength := 0,
    body := .null, postForm := none, parseFormCount := 0, bodyRead := false }

/-- Record with a single anonymous embedded non-struct field that carries a
non-empty `json` tag. -/
def tyAnonJson : Ty := .structT (.cons (.mk "E" "" "x" true .int) .nil)

/-- `reqEmpty` but advertising a 5-byte body. -/
def reqCL5 : ReqState := { reqEmpty with contentLength := 5 }

/-- Two-field record: an anonymous embedded non-struct field (whose recursive
bind always fails) followed by a body field with `json:"a"`. -/
def tyTwoField : Ty :=
  .structT (.cons (.mk "E" "" "" true .int) (.cons (.mk "S" "" "a" false .str) .nil))

def valTwoField (s : String) : Val :=
  .structV (.cons (.intV 0) (.cons (.str s) .nil))

/-- A request carrying the JSON body `{"a": "v"}` with positive content
length. -/
def reqBodyV : ReqState :=
  { reqEmpty with contentLength := 5, body := .obj [("a", .str "v")] }

/-- Record with one `[]string` field bound from query key `x`. -/
def tyQuerySlice : Ty :=
  .structT (.cons (.mk "Xs" "query:x" "" false .strSlice) .nil)

/-- Record embedding `tyQuerySlice` anonymously. -/
def tyOuterEmb : Ty := .structT (.cons (.mk "In" "" "" true tyQuerySlice) .nil)

/-- Record with one string field bound from path key `id`. -/
def tyPathStr : Ty := .structT (.cons (.mk "ID" "path:id" "" false .str) .nil)

/-- Record with one string field whose `pos` tag is malformed (no colon). -/
def tyMalformed : Ty := .structT (.cons (.mk "F" "malformed" "" false .str) .nil)

/-- Record with one string field bound from form key `x`. -/
def tyFormStr : Ty := .structT (.cons (.mk "F" "form:x" "" false .str) .nil)

/-- Record with two string fields bound from form keys `a` and `b`. -/
def tyTwoForm : Ty :=
  .structT (.cons (.mk "A" "form:a" "" false .str)
    (.cons (.mk "B" "form:b" "" false .str) .nil))

/-- A request whose form body carries `a=1&b=2`. -/
def reqForm : ReqState := { reqEmpty with formBody := [("a", "1"), ("b", "2")] }

/-- Invariant for the form-parse counter: the body has been parsed at most
once, and not at all while `PostForm` is still unset. -/
def reqInv (r : ReqState) : Prop :=
  r.parseFormCount ≤ 1 ∧ (r.postForm = none → r.parseFormCount = 0)

/-! ## Theorems for the claims -/

-- ### C4
/-- Claim C4 (code bug): the spec says `Bind` never panics and allocates nil
pointer layers, but a nil top-level pointer is the non-addressable value of
`reflect.ValueOf(params)`, so the allocating `paramsVal.Set` panics: for every
request, path accessor and element type, `Bind` on a nil outermost pointer
panics instead of proceeding. -/
theorem c4_nil_pointer_panics (r : ReqState) (pq : List PathQ) (e : Ty) :
    BindModel r pq (.ptr e) (.ptrNil e) = .panicked := by
  simp [BindModel]

-- ### C8
/-- Claim C8: a field whose `pos` tag is present but malformed (its first
directive is not exactly two colon-separated tokens, here "malformed") causes
no extraction and no assignment: for every request, accessor list and prior
field value, `Bind` succeeds (no error), leaves the field and the request
unchanged, and runs no body decode. -/
theorem c8_malformed_tag_skips (r : ReqState) (pq : List PathQ) (v : Val) :
    BindModel r pq (.ptr tyMalformed) (.ptrSome tyMalformed (.structV (.cons v .nil))) =
      .ok r (.ptrSome tyMalformed (.structV (.cons v .nil))) none false := by
  have h : getInTagLocAndName (.mk "F" "malformed" "" false .str) = ("", "") := by decide
  simp [BindModel, walkVal, bindStructPipeline, bindStruct, bindFieldM, bindFieldRest,
    collectValues, h, initCall, wrapPtr, tyMalformed, inTagPath, inTagQuery, inTagHeader,
    inTagForm, FieldT.posTag, FieldT.name, FieldT.anon, FieldT.jsonTag, FieldT.ty]

-- ### C7 amended
/-- Claim C7 (amended): with no path accessor supplied, the path lookup
returns the empty string, which is treated as one raw value, so a string
field tagged `pos:"path:id"` is assigned the empty string — overwriting any
prior value — and no error is returned.  (The claim's "the field is left
unassigned / unchanged" holds only for a destination whose field was already
the zero value.) -/
theorem c7_path_missing_assigns_empty (r : ReqState) (prior : String) :
    BindModel r [] (.ptr tyPathStr) (.ptrSome tyPathStr (.structV (.cons (.str prior) .nil))) =
      .ok r (.ptrSome tyPathStr (.structV (.cons (.str "") .nil))) none false := by
  have h : getInTagLocAndName (.mk "ID" "path:id" "" false .str) = ("path", "id") := by decide
  simp [BindModel, walkVal, bindStructPipeline, bindStruct, bindFieldM, bindFieldRest,
    collectValues, h, initCall, wrapPtr, tyPathStr, inTagPath, getValueFromPath,
    BindValue, assignVal, FieldT.posTag, FieldT.name, FieldT.anon, FieldT.jsonTag, FieldT.ty]

-- ### C7 counterexample
/-- Claim C7 counterexample: binding a destination whose path-tagged string
field already holds "x" with no path accessor supplied ends with the field
equal to "", not "x": the field is assigned, not left unchanged. -/
theorem c7_counterexample :
    BindModel reqEmpty [] (.ptr tyPathStr)
        (.ptrSome tyPathStr (.structV (.cons (.str "x") .nil))) =
      .ok reqEmpty (.ptrSome tyPathStr (.structV (.cons (.str "") .nil))) none false
    ∧ ("" : String) ≠ "x" := by
  constructor
  · have h : getInTagLocAndName (.mk "ID" "path:id" "" false .str) = ("path", "id") := by decide
    simp [BindModel, walkVal, bindStructPipeline, bindStruct, bindFieldM, bindFieldRest,
      collectValues, h, initCall, wrapPtr, tyPathStr, inTagPath, getValueFromPath,
      BindValue, assignVal, FieldT.posTag, FieldT.name, FieldT.anon, FieldT.jsonTag, FieldT.ty]
  · decide

-- ### C6
/-- Claim C6: for a field tagged `pos:"query:x"` of type `[]string` and a
request whose query is `?x=a&x=b`, the field's final value is exactly
`["a","b"]` appended to whatever the field held before, with no error. -/
theorem c6_query_slice_append (r : ReqState) (pq : List PathQ) (prior : List String)
    (h : r.query = [("x", "a"), ("x", "b")]) :
    BindModel r pq (.ptr tyQuerySlice)
        (.ptrSome tyQuerySlice (.structV (.cons (.strSlice prior) .nil))) =
      .ok r (.ptrSome tyQuerySlice
        (.structV (.cons (.strSlice (prior ++ ["a", "b"])) .nil))) none false := by
  have ht : getInTagLocAndName (.mk "Xs" "query:x" "" false .strSlice) = ("query", "x") := by
    decide
  have hl : lookupAll [("x", "a"), ("x", "b")] "x" = ["a", "b"] := by decide
  simp [BindModel, walkVal, bindStructPipeline, bindStruct, bindFieldM, bindFieldRest,
    collectValues, ht, h, hl, initCall, wrapPtr, tyQuerySlice, inTagPath, inTagQuery,
    sliceBinder, assignVal, FieldT.posTag, FieldT.name, FieldT.anon, FieldT.jsonTag, FieldT.ty]

/-- Witness for C6 at a concrete request with query `?x=a&x=b` and prior
field value `["p"]`. -/
theorem c6_witness :
    ({ reqEmpty with query := [("x", "a"), ("x", "b")] } : ReqState).query
        = [("x", "a"), ("x", "b")]
    ∧ BindModel { reqEmpty with query := [("x", "a"), ("x", "b")] } [] (.ptr tyQuerySlice)
        (.ptrSome tyQuerySlice (.structV (.cons (.strSlice ["p"]) .nil))) =
      .ok { reqEmpty with query := [("x", "a"), ("x", "b")] } (.ptrSome tyQuerySlice
        (.structV (.cons (.strSlice (["p"] ++ ["a", "b"])) .nil))) none false :=
  ⟨rfl, c6_query_slice_append _ [] ["p"] rfl⟩

-- ### C10
/-- Claim C10: a form-tagged field reads exclusively from the parsed
form-encoded body (`PostForm`): if the body holds no value under the key, the
field is unchanged regardless of what the URL query carries; the only effect
is the one-time form parse. -/
theorem c10_form_ignores_query (r : ReqState) (pq : List PathQ) (v : Val)
    (h0 : r.postForm = none) (h1 : lookupAll r.formBody "x" = []) :
    BindModel r pq (.ptr tyFormStr) (.ptrSome tyFormStr (.structV (.cons v .nil))) =
      .ok { r with postForm := some r.formBody, parseFormCount := r.parseFormCount + 1 }
        (.ptrSome tyFormStr (.structV (.cons v .nil))) none false := by
  have ht : getInTagLocAndName (.mk "F" "form:x" "" false .str) = ("form", "x") := by decide
  simp [BindModel, walkVal, bindStructPipeline, bindStruct, bindFieldM, bindFieldRest,
    collectValues, ht, h0, h1, initCall, wrapPtr, tyFormStr, inTagPath, inTagQuery,
    inTagHeader, inTagForm, doOnceParseForm, parseForm,
    FieldT.posTag, FieldT.name, FieldT.anon, FieldT.jsonTag, FieldT.ty]

/-- Witness for C10 at a concrete request whose query carries `x=fromquery`
but whose form body is empty. -/
theorem c10_witness :
    ({ reqEmpty with query := [("x", "fromquery")] } : ReqState).postForm = none
    ∧ lookupAll ({ reqEmpty with query := [("x", "fromquery")] } : ReqState).formBody "x" = []
    ∧ BindModel { reqEmpty with query := [("x", "fromquery")] } [] (.ptr tyFormStr)
        (.ptrSome tyFormStr (.structV (.cons (.str "keep") .nil))) =
      .ok { { reqEmpty with query := [("x", "fromquery")] } with
              postForm := some ({ reqEmpty with query := [("x", "fromquery")] } : ReqState).formBody,
              parseFormCount :=
                ({ reqEmpty with query := [("x", "fromquery")] } : ReqState).parseFormCount + 1 }
        (.ptrSome tyFormStr (.structV (.cons (.str "keep") .nil))) none false :=
  ⟨rfl, by decide, c10_form_ignores_query _ [] _ rfl (by decide)⟩

-- ### C1 counterexample
/-- Claim C1 counterexample: binding a `**int` whose inner pointer is nil
returns the non-struct error, but the destination is changed: the nil inner
layer has been allocated (it now points at a fresh zero int). -/
theorem c1_counterexample :
    BindModel reqEmpty [] (.ptr (.ptr .int)) (.ptrSome (.ptr .int) (.ptrNil .int)) =
      .ok reqEmpty (.ptrSome (.ptr .int) (.ptrSome .int (.intV 0))) (some .nonStruct) false
    ∧ Val.ptrNil .int ≠ Val.ptrSome .int (.intV 0) := by
  constructor
  · simp [BindModel, walkVal, wrapPtr, zeroVal]
  · simp

-- ### C2 counterexample
/-- Claim C2 counterexample: a record whose only field is an anonymous
embedded non-struct carrying `json:"x"`, on a request with positive content
length: the recursive bind of the embedded field fails before the `json` tag
is inspected, so the JSON flag is never set and the body decode does not run,
although the request advertises a body and a field carries a non-empty
`json` tag. -/
theorem c2_counterexample :
    0 < reqCL5.contentLength
    ∧ (FieldT.mk "E" "" "x" true Ty.int).jsonTag ≠ ""
    ∧ BindModel reqCL5 [] (.ptr tyAnonJson)
        (.ptrSome tyAnonJson (.structV (.cons (.intV 0) .nil))) =
      .ok reqCL5 (.ptrSome tyAnonJson (.structV (.cons (.intV 0) .nil)))
        (some .nonStruct) false := by
  refine ⟨by decide, by decide, ?_⟩
  simp [BindModel, walkVal, bindStructPipeline, bindStruct, bindFieldM, bindFieldRest,
    collectValues, initCall, wrapPtr, tyAnonJson, zeroVal, reqCL5, reqEmpty,
    FieldT.posTag, FieldT.name, FieldT.anon, FieldT.jsonTag, FieldT.ty]

-- ### C3 counterexample
/-- Claim C3 counterexample: in a record whose first field is an anonymous
embedded non-struct (its binding records the non-struct error, first
conjunct), with a second `json:"a"` field and a request with positive content
length, the body decode still executes (`true` in the result) and the call
returns `none` — the decode's successful outcome — not the recorded field
error: the source has no error guard before the decode. -/
theorem c3_counterexample :
    BindModel reqBodyV [] (.ptr .int) (.ptrSome .int (.intV 0)) =
      .ok reqBodyV (.ptrSome .int (.intV 0)) (some .nonStruct) false
    ∧ BindModel reqBodyV [] (.ptr tyTwoField) (.ptrSome tyTwoField (valTwoField "old")) =
      .ok { reqBodyV with bodyRead := true }
        (.ptrSome tyTwoField (.structV (.cons (.intV 0) (.cons (.str "v") .nil))))
        none true := by
  constructor
  · simp [BindModel, walkVal, wrapPtr]
  · have ht : getInTagLocAndName (.mk "S" "" "a" false .str) = (inTagBody, "S") := by decide
    have hk1 : jsonKeyOf (.mk "E" "" "" true .int) = "E" := by decide
    have hk2 : jsonKeyOf (.mk "S" "" "a" false .str) = "a" := by decide
    simp [BindModel, walkVal, bindStructPipeline, bindStruct, bindFieldM, bindFieldRest,
      collectValues, ht, hk1, hk2, initCall, wrapPtr, tyTwoField, valTwoField, zeroVal,
      reqBodyV, reqEmpty, runDecode, decodeJson, decodeFields, List.lookup,
      inTagPath, inTagQuery, inTagHeader, inTagForm, inTagBody,
      FieldT.posTag, FieldT.name, FieldT.anon, FieldT.jsonTag, FieldT.ty]

-- ### C3 amended
/-- Claim C3 (amended): on the two-field record whose first field's binding
always records an error, the body decode step executes whenever the request
advertises positive content length (regardless of the recorded field error)
and its outcome — failure verbatim, or success clearing the error — is what
`Bind` returns; when the decode condition fails the call returns the error
slot as serialised, which the later field's cancelled delivery has reset to
`nil`, so the field error is not returned either. -/
theorem c3_decode_supersedes (r : ReqState) (pq : List PathQ) (s : String)
    (hbr : r.bodyRead = false) :
    (0 < r.contentLength →
      BindModel r pq (.ptr tyTwoField) (.ptrSome tyTwoField (valTwoField s)) =
        match decodeJson r.body tyTwoField (valTwoField s) with
        | .ok v2 => .ok { r with bodyRead := true } (.ptrSome tyTwoField v2) none true
        | .error e =>
            .ok { r with bodyRead := true } (.ptrSome tyTwoField (valTwoField s))
              (some e) true)
    ∧ (r.contentLength ≤ 0 →
      BindModel r pq (.ptr tyTwoField) (.ptrSome tyTwoField (valTwoField s)) =
        .ok r (.ptrSome tyTwoField (valTwoField s)) none false) := by
  have ht : getInTagLocAndName (.mk "S" "" "a" false .str) = (inTagBody, "S") := by decide
  constructor
  · intro hcl
    cases hd : decodeJson r.body tyTwoField (valTwoField s) with
    | ok v2 =>
      simp only [tyTwoField, valTwoField] at hd
      simp [BindModel, walkVal, bindStructPipeline, bindStruct, bindFieldM, bindFieldRest,
        collectValues, ht, initCall, wrapPtr, tyTwoField, valTwoField, zeroVal, runDecode,
        hbr, hcl, hd, inTagPath, inTagQuery, inTagHeader, inTagForm, inTagBody,
        FieldT.posTag, FieldT.name, FieldT.anon, FieldT.jsonTag, FieldT.ty]
    | error e =>
      simp only [tyTwoField, valTwoField] at hd
      simp [BindModel, walkVal, bindStructPipeline, bindStruct, bindFieldM, bindFieldRest,
        collectValues, ht, initCall, wrapPtr, tyTwoField, valTwoField, zeroVal, runDecode,
        hbr, hcl, hd, inTagPath, inTagQuery, inTagHeader, inTagForm, inTagBody,
        FieldT.posTag, FieldT.name, FieldT.anon, FieldT.jsonTag, FieldT.ty]
  · intro hcl
    have hncl : ¬ 0 < r.contentLength := not_lt.mpr hcl
    simp [BindModel, walkVal, bindStructPipeline, bindStruct, bindFieldM, bindFieldRest,
      collectValues, ht, initCall, wrapPtr, tyTwoField, valTwoField, zeroVal,
      hncl, inTagPath, inTagQuery, inTagHeader, inTagForm, inTagBody,
      FieldT.posTag, FieldT.name, FieldT.anon, FieldT.jsonTag, FieldT.ty]

/-- Witness for C3 at the concrete request `reqBodyV` (content length 5,
body `{"a":"v"}`). -/
theorem c3_witness :
    BindModel reqBodyV [] (.ptr tyTwoField) (.ptrSome tyTwoField (valTwoField "old")) =
      match decodeJson reqBodyV.body tyTwoField (valTwoField "old") with
      | .ok v2 => .ok { reqBodyV with bodyRead := true } (.ptrSome tyTwoField v2) none true
      | .error e =>
          .ok { reqBodyV with bodyRead := true } (.ptrSome tyTwoField (valTwoField "old"))
            (some e) true :=
  (c3_decode_supersedes reqBodyV [] "old" rfl).1 (by decide)

-- ### C9 counterexample
/-- Claim C9 counterexample: binding a record that anonymously embeds a
query-bound `[]string` field whose prior value is `["p"]` yields `["a","b"]`
(the fresh embedded instance discards the prior value and is assigned back),
while binding the record with the field declared inline yields
`["p","a","b"]`: the two results differ. -/
theorem c9_counterexample :
    BindModel { reqEmpty with query := [("x", "a"), ("x", "b")] } [] (.ptr tyOuterEmb)
        (.ptrSome tyOuterEmb
          (.structV (.cons (.structV (.cons (.strSlice ["p"]) .nil)) .nil))) =
      .ok { reqEmpty with query := [("x", "a"), ("x", "b")] }
        (.ptrSome tyOuterEmb
          (.structV (.cons (.structV (.cons (.strSlice ["a", "b"]) .nil)) .nil))) none false
    ∧ BindModel { reqEmpty with query := [("x", "a"), ("x", "b")] } [] (.ptr tyQuerySlice)
        (.ptrSome tyQuerySlice (.structV (.cons (.strSlice ["p"]) .nil))) =
      .ok { reqEmpty with query := [("x", "a"), ("x", "b")] }
        (.ptrSome tyQuerySlice (.structV (.cons (.strSlice ["p", "a", "b"]) .nil))) none false
    ∧ (["a", "b"] : List String) ≠ ["p", "a", "b"] := by
  have ht : getInTagLocAndName (.mk "Xs" "query:x" "" false .strSlice) = ("query", "x") := by
    decide
  have ha : ∀ t : Ty, getInTagLocAndName (.mk "In" "" "" true t) = (inTagBody, "In") :=
    fun t => rfl
  have hl : lookupAll [("x", "a"), ("x", "b")] "x" = ["a", "b"] := by decide
  refine ⟨?_, ?_, by decide⟩
  · simp [BindModel, walkVal, bindStructPipeline, bindStruct, bindFieldM, bindFieldRest,
      collectValues, ht, ha, hl, initCall, wrapPtr, tyOuterEmb, tyQuerySlice, zeroVal,
      zeroFields, reqEmpty, sliceBinder, assignVal, inTagPath, inTagQuery, inTagHeader,
      inTagForm, inTagBody, FieldT.posTag, FieldT.name, FieldT.anon, FieldT.jsonTag,
      FieldT.ty]
  · simp [BindModel, walkVal, bindStructPipeline, bindStruct, bindFieldM, bindFieldRest,
      collectValues, ht, hl, initCall, wrapPtr, tyQuerySlice, reqEmpty, sliceBinder,
      assignVal, inTagPath, inTagQuery,
      FieldT.posTag, FieldT.name, FieldT.anon, FieldT.jsonTag, FieldT.ty]

-- ### C9 amended
/-- Claim C9 (amended): for zero-valued destinations the embedded record is
bound exactly as if its field were declared inline: for every request and
accessor list, binding the inlined record and binding the outer record with
the anonymous embedding produce the same field contents, the same (absent)
error and the same final request. -/
theorem c9_embedded_fresh_instance (r : ReqState) (pq : List PathQ) :
    ∃ w : Val,
      BindModel r pq (.ptr tyQuerySlice) (.ptrSome tyQuerySlice (zeroVal tyQuerySlice)) =
        .ok r (.ptrSome tyQuerySlice w) none false
      ∧ BindModel r pq (.ptr tyOuterEmb) (.ptrSome tyOuterEmb (zeroVal tyOuterEmb)) =
        .ok r (.ptrSome tyOuterEmb (.structV (.cons w .nil))) none false := by
  have ht : getInTagLocAndName (.mk "Xs" "query:x" "" false .strSlice) = ("query", "x") := by
    decide
  have ha : ∀ t : Ty, getInTagLocAndName (.mk "In" "" "" true t) = (inTagBody, "In") :=
    fun t => rfl
  rcases hl : lookupAll r.query "x" with _ | ⟨x, _ | ⟨y, rest⟩⟩
  · refine ⟨.structV (.cons (.strSlice []) .nil), ?_, ?_⟩ <;>
      simp [BindModel, walkVal, bindStructPipeline, bindStruct, bindFieldM, bindFieldRest,
        collectValues, ht, ha, hl, initCall, wrapPtr, tyOuterEmb, tyQuerySlice, zeroVal,
        zeroFields, inTagPath, inTagQuery, inTagHeader, inTagForm, inTagBody,
        FieldT.posTag, FieldT.name, FieldT.anon, FieldT.jsonTag, FieldT.ty]
  · refine ⟨.structV (.cons (.strSlice []) .nil), ?_, ?_⟩ <;>
      simp [BindModel, walkVal, bindStructPipeline, bindStruct, bindFieldM, bindFieldRest,
        collectValues, ht, ha, hl, initCall, wrapPtr, tyOuterEmb, tyQuerySlice, zeroVal,
        zeroFields, BindValue, inTagPath, inTagQuery, inTagHeader, inTagForm, inTagBody,
        FieldT.posTag, FieldT.name, FieldT.anon, FieldT.jsonTag, FieldT.ty]
  · refine ⟨.structV (.cons (.strSlice (x :: y :: rest)) .nil), ?_, ?_⟩ <;>
      simp [BindModel, walkVal, bindStructPipeline, bindStruct, bindFieldM, bindFieldRest,
        collectValues, ht, ha, hl, initCall, wrapPtr, tyOuterEmb, tyQuerySlice, zeroVal,
        zeroFields, sliceBinder, assignVal, inTagPath, inTagQuery, inTagHeader, inTagForm,
        inTagBody,
        FieldT.posTag, FieldT.name, FieldT.anon, FieldT.jsonTag, FieldT.ty]

-- ### infrastructure lemmas
/-- `ParseForm` does not change the advertised content length. -/
theorem parseForm_contentLength (r : ReqState) :
    (parseForm r).contentLength = r.contentLength := by
  cases h : r.postForm <;> simp [parseForm, h]

/-- Shape of the value-collection step: it returns the request either
untouched or form-parsed, records the `json` tag in the JSON flag, and leaves
the error slot and cancellation alone. -/
theorem collectValues_spec (r : ReqState) (c : CallSt) (pq : List PathQ) (f : FieldT) :
    ∃ r1 c1 values, collectValues r c pq f = (r1, c1, values)
      ∧ (r1 = r ∨ r1 = parseForm r)
      ∧ c1.hasJSON = (c.hasJSON || f.jsonTag != "")
      ∧ c1.errSlot = c.errSlot ∧ c1.cancelled = c.cancelled := by
  simp only [collectValues, doOnceParseForm]
  split_ifs <;> exact ⟨_, _, _, rfl, by simp, by simp, by simp, by simp⟩

/-- A non-anonymous field task always completes without delivering an error,
with the request either untouched or form-parsed, and records its `json` tag
in the JSON flag. -/
theorem bindFieldRest_spec (r : ReqState) (c : CallSt) (pq : List PathQ) (f : FieldT)
    (v : Val) :
    ∃ r1 c1 v1, bindFieldRest r c pq f v = .ok r1 c1 v1 none
      ∧ (r1 = r ∨ r1 = parseForm r)
      ∧ c1.hasJSON = (c.hasJSON || f.jsonTag != "")
      ∧ c1.errSlot = c.errSlot ∧ c1.cancelled = c.cancelled := by
  obtain ⟨r1, c1, values, hcv, hr, hj, he, hc⟩ := collectValues_spec r c pq f
  rcases values with _ | ⟨x, _ | ⟨y, rest⟩⟩
  · exact ⟨r1, c1, v, by unfold bindFieldRest; rw [hcv], hr, hj, he, hc⟩
  · cases hbv : BindValue x f.ty with
    | none => exact ⟨r1, c1, v, by unfold bindFieldRest; rw [hcv]; simp [hbv], hr, hj, he, hc⟩
    | some rv =>
        exact ⟨r1, c1, assignVal f.ty v rv,
          by unfold bindFieldRest; rw [hcv]; simp [hbv], hr, hj, he, hc⟩
  · cases hsb : sliceBinder (x :: y :: rest) f.ty with
    | none => exact ⟨r1, c1, v, by unfold bindFieldRest; rw [hcv]; simp [hsb], hr, hj, he, hc⟩
    | some rv =>
        exact ⟨r1, c1, assignVal f.ty v rv,
          by unfold bindFieldRest; rw [hcv]; simp [hsb], hr, hj, he, hc⟩

/-- The field walk over a record without anonymous fields: it completes, its
final JSON flag is the disjunction of the fields' `json` tags, and the
content length is unchanged. -/
theorem bindStruct_noAnon : ∀ (fs : Fields) (vs : Vals) (r : ReqState) (c : CallSt)
    (pq : List PathQ), noAnonFields fs = true → compatFields fs vs = true →
    ∃ r1 c1 vs1, bindStruct r c pq fs vs = .ok r1 c1 vs1
      ∧ c1.hasJSON = (c.hasJSON || anyJsonTag fs)
      ∧ r1.contentLength = r.contentLength
  | .nil, .nil, r, c, pq, _, _ =>
      ⟨r, c, .nil, by simp [bindStruct], by simp [anyJsonTag], rfl⟩
  | .nil, .cons v vs, r, c, pq, _, hcf => by simp [compatFields] at hcf
  | .cons (.mk nm pt jt an t) fs', .nil, r, c, pq, _, hcf => by
      simp [compatFields] at hcf
  | .cons (.mk nm pt jt an t) fs', .cons v vs', r, c, pq, hna, hcf => by
    have hna2 := hna
    simp only [noAnonFields, FieldT.anon, Bool.and_eq_true, Bool.not_eq_true'] at hna2
    obtain ⟨han, hna'⟩ := hna2
    subst han
    have hcf2 := hcf
    simp only [compatFields, Bool.and_eq_true] at hcf2
    obtain ⟨-, hcf'⟩ := hcf2
    obtain ⟨r1, c1, v1, hbf, hr, hj, he, hc⟩ :=
      bindFieldRest_spec r c pq (.mk nm pt jt false t) v
    obtain ⟨r2, c2, vs2, hbs, hj2, hcl2⟩ :=
      bindStruct_noAnon fs' vs' r1 { c1 with errSlot := none } pq hna' hcf'
    refine ⟨r2, c2, .cons v1 vs2, ?_, ?_, ?_⟩
    · simp [bindStruct, bindFieldM, hbf, hbs]
    · rw [hj2, hj]; simp [anyJsonTag, FieldT.jsonTag, Bool.or_assoc]
    · rcases hr with h | h
      · rw [hcl2, h]
      · rw [hcl2, h, parseForm_contentLength]

-- ### C2 amended
/-- Claim C2 (amended): for every record without anonymous embedded fields
(where every field reaches its `json`-tag check), the JSON body overlay of a
`Bind` call executes iff the request advertises positive content length and
some field carries a non-empty `json` tag.  (An anonymous field whose
recursive bind fails never reaches the check — see the counterexample.) -/
theorem c2_overlay_condition (r : ReqState) (pq : List PathQ) (fs : Fields) (vs : Vals)
    (hna : noAnonFields fs = true) (hcf : compatFields fs vs = true) :
    resRanDecode (BindModel r pq (.ptr (.structT fs)) (.ptrSome (.structT fs) (.structV vs)))
      = (decide (0 < r.contentLength) && anyJsonTag fs) := by
  obtain ⟨r1, c1, vs1, hbs, hj, hcl⟩ := bindStruct_noAnon fs vs r initCall pq hna hcf
  have hj1 : c1.hasJSON = anyJsonTag fs := by simpa [initCall] using hj
  simp only [BindModel, walkVal, bindStructPipeline, hbs, wrapPtr]
  by_cases h : 0 < r.contentLength
  · cases ha : anyJsonTag fs
    · simp [resRanDecode, hj1, ha, hcl]
    · rcases hrd : runDecode r1 (.structT fs) (.structV vs1) with ⟨r2, res⟩
      cases res <;> simp [resRanDecode, hj1, ha, hcl, h, hrd]
  · simp [resRanDecode, hj1, hcl, h]

/-- Witness for C2 on a one-field record with `json:"a"` and a request with
content length 5. -/
theorem c2_witness :
    noAnonFields (.cons (.mk "S" "" "a" false .str) .nil) = true
    ∧ anyJsonTag (.cons (.mk "S" "" "a" false .str) .nil) = true
    ∧ resRanDecode (BindModel reqCL5 []
        (.ptr (.structT (.cons (.mk "S" "" "a" false .str) .nil)))
        (.ptrSome (.structT (.cons (.mk "S" "" "a" false .str) .nil))
          (.structV (.cons (.str "") .nil)))) =
      (decide (0 < reqCL5.contentLength)
        && anyJsonTag (.cons (.mk "S" "" "a" false .str) .nil)) :=
  ⟨by decide, by decide,
    c2_overlay_condition reqCL5 [] _ _ (by decide) (by simp [compatFields, compatTV])⟩

-- ### C1 infrastructure
mutual
/-- Zero values are well-typed. -/
theorem compatTV_zero : ∀ t : Ty, compatTV t (zeroVal t) = true
  | .str => by simp [zeroVal, compatTV]
  | .int => by simp [zeroVal, compatTV]
  | .strSlice => by simp [zeroVal, compatTV]
  | .structT fs => by simp [zeroVal, compatTV, compatFields_zero fs]
  | .ptr e => by simp [zeroVal, compatTV]
termination_by t => tyDepth t
decreasing_by all_goals (try simp [tyDepth, fieldsDepth, FieldT.ty]); all_goals omega

/-- Zero field values are well-typed. -/
theorem compatFields_zero : ∀ fs : Fields, compatFields fs (zeroFields fs) = true
  | .nil => by simp [zeroFields, compatFields]
  | .cons (.mk nm pt jt an t) fs' => by
      simp [zeroFields, compatFields, compatTV_zero t, compatFields_zero fs']
termination_by fs => fieldsDepth fs
decreasing_by all_goals (try simp [tyDepth, fieldsDepth, FieldT.ty]); all_goals omega
end

/-- The pointer walk on a well-typed value whose chain does not end in a
struct: nil layers are allocated, the request is untouched, and the
non-struct error is reported. -/
theorem walkVal_nonstruct : ∀ (e : Ty) (v : Val) (r : ReqState) (pq : List PathQ),
    compatTV e v = true → (stripPtrs e).isStructT = false →
    ∃ v2, walkVal r pq e v = .ok r v2 (some .nonStruct) false
  | .str, v, r, pq, _, _ => ⟨v, by simp [walkVal]⟩
  | .int, v, r, pq, _, _ => ⟨v, by simp [walkVal]⟩
  | .strSlice, v, r, pq, _, _ => ⟨v, by simp [walkVal]⟩
  | .structT fs, v, r, pq, _, hns => by simp [stripPtrs, Ty.isStructT] at hns
  | .ptr e, .ptrNil e2, r, pq, hcv, hns => by
      have hns' : (stripPtrs e).isStructT = false := by simpa [stripPtrs] using hns
      obtain ⟨v2, hv⟩ := walkVal_nonstruct e (zeroVal e) r pq (compatTV_zero e) hns'
      exact ⟨.ptrSome e v2, by simp [walkVal, wrapPtr, hv]⟩
  | .ptr e, .ptrSome e2 inner, r, pq, hcv, hns => by
      have hcv' : compatTV e inner = true := by simpa [compatTV] using hcv
      have hns' : (stripPtrs e).isStructT = false := by simpa [stripPtrs] using hns
      obtain ⟨v2, hv⟩ := walkVal_nonstruct e inner r pq hcv' hns'
      exact ⟨.ptrSome e2 v2, by simp [walkVal, wrapPtr, hv]⟩
  | .ptr e, .str s, r, pq, hcv, _ => by simp [compatTV] at hcv
  | .ptr e, .intV n, r, pq, hcv, _ => by simp [compatTV] at hcv
  | .ptr e, .strSlice xs, r, pq, hcv, _ => by simp [compatTV] at hcv
  | .ptr e, .structV vs, r, pq, hcv, _ => by simp [compatTV] at hcv
termination_by e => tyDepth e
decreasing_by all_goals (try simp [tyDepth, fieldsDepth, FieldT.ty]); all_goals omega

-- ### C1 amended
/-- Claim C1 (amended): a non-pointer destination makes `Bind` fail with the
non-pointer error (bind.go line 45, the
spec's InvalidTargetKind "non-pointer") leaving destination and request
untouched; a non-nil pointer destination whose chain of pointers ultimately
addresses a non-record fails with the non-struct error (InvalidTargetKind
"non-struct"), but the destination is not necessarily unchanged: nil
intermediate layers encountered on the way have been allocated (see the
counterexample), and a nil outermost pointer panics instead (claim C4). -/
theorem c1_invalid_target :
    (∀ (r : ReqState) (pq : List PathQ) (ty : Ty) (v : Val), ty.isPtr = false →
      BindModel r pq ty v = .ok r v (some .nonPointer) false)
    ∧ (∀ (r : ReqState) (pq : List PathQ) (e e2 : Ty) (inner : Val),
      compatTV e inner = true → (stripPtrs e).isStructT = false →
      ∃ v2, BindModel r pq (.ptr e) (.ptrSome e2 inner) =
        .ok r (.ptrSome e2 v2) (some .nonStruct) false) := by
  constructor
  · intro r pq ty v h
    cases ty with
    | ptr e => simp [Ty.isPtr] at h
    | str => simp [BindModel]
    | int => simp [BindModel]
    | strSlice => simp [BindModel]
    | structT fs => simp [BindModel]
  · intro r pq e e2 inner hc hn
    obtain ⟨v2, hv⟩ := walkVal_nonstruct e inner r pq hc hn
    exact ⟨v2, by simp [BindModel, wrapPtr, hv]⟩

/-- Witness for C1 at a non-pointer destination (a bare string) and at a
`*int` destination. -/
theorem c1_witness :
    BindModel reqEmpty [] .str (.str "z") = .ok reqEmpty (.str "z") (some .nonPointer) false
    ∧ ∃ v2, BindModel reqEmpty [] (.ptr .int) (.ptrSome .int (.intV 7)) =
        .ok reqEmpty (.ptrSome .int v2) (some .nonStruct) false :=
  ⟨c1_invalid_target.1 reqEmpty [] .str (.str "z") (by decide),
   c1_invalid_target.2 reqEmpty [] .int .int (.intV 7) (by simp [compatTV]) (by decide)⟩

-- ### C5 infrastructure
/-- `ParseForm` preserves the parse-count invariant. -/
theorem parseForm_inv (r : ReqState) (h : reqInv r) : reqInv (parseForm r) := by
  rcases h with ⟨h1, h2⟩
  cases hp : r.postForm with
  | none =>
      have h0 := h2 hp
      simp [reqInv, parseForm, hp, h0]
  | some l =>
      have hpr : parseForm r = r := by simp [parseForm, hp]
      rw [hpr]; exact ⟨h1, h2⟩

/-- The body decode step preserves the parse-count invariant. -/
theorem runDecode_inv (r : ReqState) (ty : Ty) (v : Val) (r2 : ReqState)
    (res : Except BErr Val) (hi : reqInv r) (h : runDecode r ty v = (r2, res)) :
    reqInv r2 := by
  unfold runDecode at h
  split_ifs at h
  · cases h; exact hi
  · cases h; simpa [reqInv] using hi

/-- A non-anonymous field task preserves the parse-count invariant. -/
theorem bindFieldRest_inv (r : ReqState) (c : CallSt) (pq : List PathQ) (f : FieldT)
    (v : Val) (hi : reqInv r) (r2 : ReqState) (c2 : CallSt) (v2 : Val) (e2 : Option BErr)
    (hw : bindFieldRest r c pq f v = .ok r2 c2 v2 e2) : reqInv r2 := by
  obtain ⟨r1, c1, v1, hbf, hr, -, -, -⟩ := bindFieldRest_spec r c pq f v
  rw [hbf] at hw
  cases hw
  rcases hr with h' | h'
  · rwa [h']
  · rw [h']; exact parseForm_inv r hi

mutual
/-- The pointer walk preserves the parse-count invariant. -/
theorem walkVal_inv : ∀ (ty : Ty) (v : Val) (r : ReqState) (pq : List PathQ)
    (r2 : ReqState) (v2 : Val) (e2 : Option BErr) (d2 : Bool), reqInv r →
    walkVal r pq ty v = .ok r2 v2 e2 d2 → reqInv r2
  | .str, v, r, pq, r2, v2, e2, d2, hi, hw => by
      simp only [walkVal] at hw; cases hw; exact hi
  | .int, v, r, pq, r2, v2, e2, d2, hi, hw => by
      simp only [walkVal] at hw; cases hw; exact hi
  | .strSlice, v, r, pq, r2, v2, e2, d2, hi, hw => by
      simp only [walkVal] at hw; cases hw; exact hi
  | .structT fs, .structV vs, r, pq, r2, v2, e2, d2, hi, hw => by
      simp only [walkVal] at hw
      exact bindStructPipeline_inv fs vs r pq r2 v2 e2 d2 hi hw
  | .structT fs, .str s, r, pq, r2, v2, e2, d2, hi, hw => by
      simp only [walkVal] at hw; cases hw; exact hi
  | .structT fs, .intV n, r, pq, r2, v2, e2, d2, hi, hw => by
      simp only [walkVal] at hw; cases hw; exact hi
  | .structT fs, .strSlice xs, r, pq, r2, v2, e2, d2, hi, hw => by
      simp only [walkVal] at hw; cases hw; exact hi
  | .structT fs, .ptrNil e0, r, pq, r2, v2, e2, d2, hi, hw => by
      simp only [walkVal] at hw; cases hw; exact hi
  | .structT fs, .ptrSome e0 inner, r, pq, r2, v2, e2, d2, hi, hw => by
      simp only [walkVal] at hw; cases hw; exact hi
  | .ptr e, .ptrSome e0 inner, r, pq, r2, v2, e2, d2, hi, hw => by
      simp only [walkVal] at hw
      cases hres : walkVal r pq e inner with
      | panicked => rw [hres] at hw; simp [wrapPtr] at hw
      | ok ra va ea da =>
          rw [hres] at hw
          simp only [wrapPtr] at hw
          cases hw
          exact walkVal_inv e inner r pq _ _ _ _ hi hres
  | .ptr e, .ptrNil e0, r, pq, r2, v2, e2, d2, hi, hw => by
      simp only [walkVal] at hw
      cases hres : walkVal r pq e (zeroVal e) with
      | panicked => rw [hres] at hw; simp [wrapPtr] at hw
      | ok ra va ea da =>
          rw [hres] at hw
          simp only [wrapPtr] at hw
          cases hw
          exact walkVal_inv e (zeroVal e) r pq _ _ _ _ hi hres
  | .ptr e, .str s, r, pq, r2, v2, e2, d2, hi, hw => by
      simp only [walkVal] at hw; cases hw; exact hi
  | .ptr e, .intV n, r, pq, r2, v2, e2, d2, hi, hw => by
      simp only [walkVal] at hw; cases hw; exact hi
  | .ptr e, .strSlice xs, r, pq, r2, v2, e2, d2, hi, hw => by
      simp only [walkVal] at hw; cases hw; exact hi
  | .ptr e, .structV vs, r, pq, r2, v2, e2, d2, hi, hw => by
      simp only [walkVal] at hw; cases hw; exact hi
termination_by ty => 2 * tyDepth ty + 2
decreasing_by all_goals (try simp [tyDepth, fieldsDepth, FieldT.ty]); all_goals omega

/-- The walk-then-decode pipeline preserves the parse-count invariant. -/
theorem bindStructPipeline_inv : ∀ (fs : Fields) (vs : Vals) (r : ReqState)
    (pq : List PathQ) (r2 : ReqState) (v2 : Val) (e2 : Option BErr) (d2 : Bool),
    reqInv r → bindStructPipeline r pq fs vs = .ok r2 v2 e2 d2 → reqInv r2
  | fs, vs, r, pq, r2, v2, e2, d2, hi, hw => by
      simp only [bindStructPipeline] at hw
      split at hw
      · simp at hw
      next r1 c vs1 heq =>
        have hi1 : reqInv r1 := bindStruct_inv fs vs r initCall pq r1 c vs1 hi heq
        split at hw
        · split at hw
          next rr vv heq2 =>
            cases hw
            exact runDecode_inv r1 (.structT fs) (.structV vs1) _ _ hi1 heq2
          next rr ee heq2 =>
            cases hw
            exact runDecode_inv r1 (.structT fs) (.structV vs1) _ _ hi1 heq2
        · cases hw
          exact hi1
termination_by fs => 2 * fieldsDepth fs + 5
decreasing_by all_goals (try simp [tyDepth, fieldsDepth, FieldT.ty]); all_goals omega

/-- The field loop preserves the parse-count invariant. -/
theorem bindStruct_inv : ∀ (fs : Fields) (vs : Vals) (r : ReqState) (c : CallSt)
    (pq : List PathQ) (r2 : ReqState) (c2 : CallSt) (vs2 : Vals),
    reqInv r → bindStruct r c pq fs vs = .ok r2 c2 vs2 → reqInv r2
  | .nil, vs, r, c, pq, r2, c2, vs2, hi, hw => by
      simp only [bindStruct] at hw; cases hw; exact hi
  | .cons (.mk nm pt jt an t) fs', .nil, r, c, pq, r2, c2, vs2, hi, hw => by
      simp only [bindStruct] at hw; cases hw; exact hi
  | .cons (.mk nm pt jt an t) fs', .cons v vs', r, c, pq, r2, c2, vs2, hi, hw => by
      simp only [bindStruct] at hw
      split at hw
      · simp at hw
      next r1 c1 v1 ferr heqf =>
        have hi1 : reqInv r1 :=
          bindFieldM_inv (.mk nm pt jt an t) v r c pq r1 c1 v1 ferr hi heqf
        split at hw
        · simp at hw
        next rb cb vsb heqs =>
          cases hw
          exact bindStruct_inv fs' vs' r1 _ pq _ _ _ hi1 heqs
termination_by fs => 2 * fieldsDepth fs + 4
decreasing_by all_goals (try simp [tyDepth, fieldsDepth, FieldT.ty]); all_goals omega

/-- A field task (anonymous or not) preserves the parse-count invariant. -/
theorem bindFieldM_inv : ∀ (f : FieldT) (v : Val) (r : ReqState) (c : CallSt)
    (pq : List PathQ) (r2 : ReqState) (c2 : CallSt) (v2 : Val) (e2 : Option BErr),
    reqInv r → bindFieldM r c pq f v = .ok r2 c2 v2 e2 → reqInv r2
  | .mk nm pt jt an t, v, r, c, pq, r2, c2, v2, e2, hi, hw => by
      cases an with
      | false =>
          simp only [bindFieldM, Bool.false_eq_true, if_false] at hw
          exact bindFieldRest_inv r c pq (.mk nm pt jt false t) v hi r2 c2 v2 e2 hw
      | true =>
          simp only [bindFieldM, if_true] at hw
          split at hw
          · simp at hw
          next ra va rerr dd heqw =>
            have hia : reqInv ra := walkVal_inv t (zeroVal t) r pq ra va rerr dd hi heqw
            split at hw
            · cases hw
              exact hia
            · exact bindFieldRest_inv ra c pq (.mk nm pt jt true t) va hia r2 c2 v2 e2 hw
termination_by f => 2 * tyDepth f.ty + 5
decreasing_by all_goals (try simp [tyDepth, fieldsDepth, FieldT.ty]); all_goals omega
end

-- ### C5
/-- Claim C5: for every destination and fresh request (form not yet parsed),
a `Bind` call parses the request's form body at most once, however many
form-tagged fields the record (or its embedded records) has: the `sync.Once`
guard covers all form fields of one call, and the recursive call of an
anonymous embedding reuses the request, whose `ParseForm` is idempotent. -/
theorem c5_form_parse_once (r : ReqState) (pq : List PathQ) (ty : Ty) (v : Val)
    (_h0 : r.postForm = none) (h1 : r.parseFormCount = 0) :
    resParseFormCount (BindModel r pq ty v) ≤ 1 := by
  have hi : reqInv r := ⟨by omega, fun _ => h1⟩
  cases ty with
  | ptr e =>
      cases v with
      | ptrNil e0 => simp [BindModel, resParseFormCount]
      | ptrSome e0 inner =>
          cases hres : walkVal r pq e inner with
          | panicked => simp [BindModel, hres, wrapPtr, resParseFormCount]
          | ok ra va ea da =>
              have hle : ra.parseFormCount ≤ 1 :=
                (walkVal_inv e inner r pq ra va ea da hi hres).1
              simpa [BindModel, hres, wrapPtr, resParseFormCount] using hle
      | str s => simp [BindModel, resParseFormCount, h1]
      | intV n => simp [BindModel, resParseFormCount, h1]
      | strSlice xs => simp [BindModel, resParseFormCount, h1]
      | structV vs => simp [BindModel, resParseFormCount, h1]
  | str => simp [BindModel, resParseFormCount, h1]
  | int => simp [BindModel, resParseFormCount, h1]
  | strSlice => simp [BindModel, resParseFormCount, h1]
  | structT fs => simp [BindModel, resParseFormCount, h1]

/-- Witness for C5 on a record with two form-tagged fields and a request
carrying a form body. -/
theorem c5_witness :
    resParseFormCount (BindModel reqForm [] (.ptr tyTwoForm)
      (.ptrSome tyTwoForm (.structV (.cons (.str "") (.cons (.str "") .nil))))) ≤ 1 :=
  c5_form_parse_once reqForm [] (.ptr tyTwoForm)
    (.ptrSome tyTwoForm (.structV (.cons (.str "") (.cons (.str "") .nil)))) rfl rfl

end EasyBind
